import Mathlib

/-!
Verification development for the stackshift migration pipeline
(Vite-to-Next.js migration assistant).

The TypeScript sources are shallowly embedded: pure computations become
Lean functions, the filesystem becomes an explicit association list of
paths to file values threaded through each transformer, and fallible
operations return `Except`.  External libraries (the Babel parser and
printer, the JSON and TOML parsers, the network oracle) are abstracted
as parameters or `Option`-valued inputs, never as stubs of repository
logic.
-/

namespace StackShift

/-! ## Generic association-list operations (JS object semantics) -/

/-- First-match lookup in an association list (JS property read). -/
def lookupA {α : Type} (m : List (String × α)) (k : String) : Option α :=
  match m with
  | [] => none
  | (k₁, v) :: rest => if k₁ = k then some v else lookupA rest k

/-- Update the first binding of `k`, or append it (JS property write). -/
def setA {α : Type} (m : List (String × α)) (k : String) (v : α) : List (String × α) :=
  match m with
  | [] => [(k, v)]
  | (k₁, v₁) :: rest => if k₁ = k then (k, v) :: rest else (k₁, v₁) :: setA rest k v

/-- Remove every binding of `k` (JS `delete obj[k]`). -/
def eraseA {α : Type} (m : List (String × α)) (k : String) : List (String × α) :=
  m.filter (fun kv => kv.1 != k)

/-- Delete each key of `names` in turn (the `forEach`/`delete` loop). -/
def eraseAll {α : Type} (m : List (String × α)) (names : List String) : List (String × α) :=
  names.foldl (fun acc n => eraseA acc n) m

/-- JS object spread `\x7b...a, ...b\x7d`: keys of `a` keep their position but take
the value of `b` when `b` also binds them; keys only in `b` are appended. -/
def mergeA {α : Type} (a b : List (String × α)) : List (String × α) :=
  a.map (fun kv => (kv.1, (lookupA b kv.1).getD kv.2)) ++
    b.filter (fun kv => (lookupA a kv.1).isNone)

/-- The key sequence of an association list (JS `Object.keys`). -/
def keysA {α : Type} (m : List (String × α)) : List String :=
  m.map Prod.fst

/-! ## Strings: JS helpers used by the sources -/

/-- Does `sub` occur contiguously in `l`?  (Worker for `jsIncludes`.) -/
def hasSubstr (sub : List Char) : List Char → Bool
  | [] => sub.isEmpty
  | c :: rest => sub.isPrefixOf (c :: rest) || hasSubstr sub rest

/-- JS `String.prototype.includes`: substring containment. -/
def jsIncludes (s pat : String) : Bool :=
  hasSubstr pat.data s.data

/-- JS truthiness of a nullable string: `null` and the empty string are falsy. -/
def truthy : Option String → Bool
  | none => false
  | some s => s != ""

/-- Split a character list at every occurrence of `c` (JS
`split(c)` for a one-character separator, empty pieces preserved). -/
def splitOnChar (c : Char) : List Char → List (List Char)
  | [] => [[]]
  | x :: xs =>
    if x = c then [] :: splitOnChar c xs
    else
      match splitOnChar c xs with
      | [] => [[x]]
      | seg :: rest => (x :: seg) :: rest

/-- JS `String.prototype.split` with a one-character separator. -/
def jsSplit (s : String) (c : Char) : List String :=
  (splitOnChar c s.data).map (fun l => ⟨l⟩)

/-- Split at every occurrence of the two-character separator `==`
(JS `split(\x27==\x27)`, scanning left to right). -/
def splitOnEqEq : List Char → List (List Char)
  | [] => [[]]
  | '=' :: '=' :: rest => [] :: splitOnEqEq rest
  | c :: rest =>
    match splitOnEqEq rest with
    | [] => [[c]]
    | seg :: segs => (c :: seg) :: segs

/-- JS `split(\x27==\x27)` on a string. -/
def jsSplitEqEq (s : String) : List String :=
  (splitOnEqEq s.data).map (fun l => ⟨l⟩)

/-- JS `String.prototype.startsWith`. -/
def jsStartsWith (s pre : String) : Bool :=
  pre.data.isPrefixOf s.data

/-- JS `String.prototype.endsWith`. -/
def jsEndsWith (s suf : String) : Bool :=
  suf.data.isSuffixOf s.data

/-- `node:path`-style join of the non-empty components with `/`. -/
def pathJoin (parts : List String) : String :=
  String.intercalate "/" (parts.filter (fun p => p != ""))

/-- `node:path`-style `dirname`: drop the last `/`-separated component. -/
def dirname (p : String) : String :=
  String.intercalate "/" ((jsSplit p '/').dropLast)

/-! ## Data model (src/types.ts) -/

/-- `RouteInfo` from `src/types.ts`; the optional `hasLoaders` flag is a
`Bool` (absent encodes as `false`, matching its JS truthiness use). -/
structure RouteInfo where
  path : String
  component : String
  hasParams : Bool
  hasQueryParams : Bool
  hasLoaders : Bool
deriving DecidableEq

/-- The three maps of a package manifest that the pipeline reads and
rewrites (`name → version` resp. `script name → command`). -/
structure PackageJson where
  dependencies : List (String × String)
  devDependencies : List (String × String)
  scripts : List (String × String)
deriving DecidableEq

/-- `Dependency` from `src/types.ts`. -/
structure Dependency where
  name : String
  version : String
  isCompatible : Bool
  alternativePackage : Option String
deriving DecidableEq

/-- A `requiresMigration` entry of `DependencyAnalysis` (src/types.ts). -/
structure MigrationRequirement where
  dependency : String
  reason : String
  suggestion : String
deriving DecidableEq

/-- `RoutingAnalysis` from `src/types.ts` (`type` is the union-typed tag). -/
structure RoutingAnalysis where
  type : String
  routes : List RouteInfo
  suggestedNextjsStructure : List String
  migrationSteps : List String
deriving DecidableEq

/-- `StateManagementAnalysis` from `src/types.ts`. -/
structure StateManagementAnalysis where
  type : String
  storeLocations : List String
  complexity : String
  suggestedApproach : String
deriving DecidableEq

/-- `DataFetchingAnalysis` from `src/types.ts`. -/
structure DataFetchingAnalysis where
  patterns : List String
  apiEndpoints : List String
  suggestedNextjsApproach : List String
deriving DecidableEq

/-- `StylingAnalysis` from `src/types.ts`. -/
structure StylingAnalysis where
  type : List String
  suggestedMigration : String
deriving DecidableEq

/-- `DependencyAnalysis` from `src/types.ts`. -/
structure DependencyAnalysis where
  viteSpecific : List String
  nextCompatible : List String
  requiresMigration : List MigrationRequirement
deriving DecidableEq

/-- `ViteConfigAnalysis` from `src/types.ts` (`build` is unused downstream
and is kept as raw key/value text). -/
structure ViteConfigAnalysis where
  plugins : List String
  aliases : List (String × String)
  environment : List (String × String)
  build : List (String × String)
deriving DecidableEq

/-- `ConfigurationAnalysis` from `src/types.ts`. -/
structure ConfigurationAnalysis where
  viteConfig : ViteConfigAnalysis
  environmentVariables : List String
  buildConfiguration : List String
  suggestedNextConfig : String
deriving DecidableEq

/-- `CodebaseAnalysis` from `src/types.ts`. -/
structure CodebaseAnalysis where
  routing : RoutingAnalysis
  stateManagement : StateManagementAnalysis
  dataFetching : DataFetchingAnalysis
  styling : StylingAnalysis
  dependencies : DependencyAnalysis
  configuration : ConfigurationAnalysis
deriving DecidableEq

/-- The `dependencies` block of `AIAnalysis` (src/types.ts): there its
`requiresMigration` is a plain string list. -/
structure AIDependencies where
  viteSpecific : List String
  nextCompatible : List String
  requiresMigration : List String
deriving DecidableEq

/-- The `configuration` block of `AIAnalysis`. -/
structure AIConfiguration where
  suggestedNextConfig : String
deriving DecidableEq

/-- `AIAnalysis` from `src/types.ts`. -/
structure AIAnalysis where
  routing : RoutingAnalysis
  dependencies : AIDependencies
  configuration : AIConfiguration
deriving DecidableEq

/-- `ProjectAnalysis` from `src/types.ts`, extended with the `configFiles`
list that `performBasicAnalysis` actually places on the returned object. -/
structure ProjectAnalysis where
  framework : String
  dependencies : List Dependency
  tsConfig : Option String
  pythonConfig : Option String
  testConfig : Option String
  lintConfig : Option String
  prettierConfig : Option String
  ciConfig : Option String
  containerizationConfig : Option String
  configFiles : List String
  routingStructure : List String
  aiSuggestions : Option AIAnalysis
deriving DecidableEq

/-- `ProjectAnalyzerOptions` from `src/types.ts`. -/
structure ProjectAnalyzerOptions where
  config : Option (List String)
  skipAI : Bool
  nonInteractive : Bool
deriving DecidableEq

/-- `MigrationPlan` task (src/types.ts `Task`). -/
structure Task where
  id : String
  description : String
  codeChanges : Option String
  resources : Option (List String)
deriving DecidableEq

/-- `MigrationStep` from `src/types.ts`. -/
structure MigrationStep where
  id : String
  title : String
  description : String
  tasks : List Task
  estimatedTime : String
deriving DecidableEq

/-- `MigrationPlan` from `src/types.ts`. -/
structure MigrationPlan where
  steps : List MigrationStep
  estimatedTime : String
  estimatedCost : Nat
  complexity : String
deriving DecidableEq

/-! ## Route path translation (src/transformers/routes.ts) -/

/-- Embeds line 33 of `routes.ts`:
`segment.startsWith(\x27:\x27) ? \x60[\x24\x7bsegment.slice(1)\x7d]\x60 : segment`.
The `startsWith` test on a path segment is rendered as a match on the
first character. -/
def toNextSegment (s : String) : String :=
  match s.data with
  | ':' :: rest => ⟨'[' :: rest ++ [']']⟩
  | _ => s

/-- The segment list of `transformRoute` line 29:
`routePath.split(\x27/\x27).filter(Boolean)`. -/
def pathSegments (routePath : String) : List String :=
  (jsSplit routePath '/').filter (fun s => s != "")

/-- The target path computed by `transformRoute` (lines 29-34):
split on `/`, drop empty segments, bracket the parameter segments,
re-join with `/`. -/
def nextPath (routePath : String) : String :=
  String.intercalate "/" ((pathSegments routePath).map toNextSegment)

/-- One segment of `transformRouteParameters` (routes.ts lines 134-144).
The colon test comes first, exactly as in the source; the
parenthesized-regex branch fires only for segments that do not start
with `:`.  JS `slice(1, -1)` is `drop 1` then `dropLast`, and the
destructuring of `split(\x27(\x27)` takes the first two pieces. -/
def transformRouteSegment (s : String) : String :=
  match s.data with
  | ':' :: rest => ⟨'[' :: rest ++ [']']⟩
  | _ =>
    if s.data.contains '(' && s.data.contains ')' then
      let inner : String := ⟨(s.data.drop 1).dropLast⟩
      let parts := jsSplit inner '('
      let paramName := parts.headD ""
      let regex := (parts.drop 1).headD ""
      "[" ++ paramName ++ ":" ++ regex ++ "]"
    else s

/-- `transformRouteParameters` (routes.ts lines 132-146): split on `/`
(without dropping empties), transform each segment, re-join. -/
def transformRouteParameters (routePath : String) : String :=
  String.intercalate "/" ((jsSplit routePath '/').map transformRouteSegment)

/-! ## Filesystem model

The file tree is an association list from full paths to file values plus
the set of directories created so far.  A file value is either raw text
or an already-parsed package manifest (so that `fs.readJson` and
`fs.writeJson` can be modelled without a JSON grammar: a `.json` value
stands for a file whose text parses to that manifest, and a path bound
to `.text` where JSON is expected stands for a malformed manifest). -/

inductive FileVal where
  | text : String → FileVal
  | json : PackageJson → FileVal
deriving DecidableEq

/-- The modelled file tree. -/
structure FS where
  files : List (String × FileVal)
  dirs : List String
deriving DecidableEq

/-- `fs.writeFile` / `fs.writeJson`. -/
def fsWrite (fs : FS) (p : String) (v : FileVal) : FS :=
  { fs with files := setA fs.files p v }

/-- `fs.ensureDir`. -/
def fsEnsureDir (fs : FS) (d : String) : FS :=
  { fs with dirs := if fs.dirs.contains d then fs.dirs else fs.dirs ++ [d] }

/-- `fs.pathExists` on a file path. -/
def fsExists (fs : FS) (p : String) : Bool :=
  (lookupA fs.files p).isSome

/-! ## Route rewriter (src/transformers/routes.ts)

The two text-surgery helpers `migrateDataFetching` (which may also emit
an API-handler file) and `transformComponentToNextjs` splice component
text with JS regular expressions; they are abstracted as parameters so
that every theorem below holds for any choice of splicing functions. -/

/-- Abstraction of `migrateDataFetching`: from the project path, the
current tree, the component text and the route it may write an API file
and returns the updated tree with the migrated component text. -/
def MigrateFn : Type :=
  String → FS → String → RouteInfo → FS × String

/-- Abstraction of `transformComponentToNextjs`. -/
def ComponentFn : Type :=
  String → RouteInfo → String

/-- `findComponentFile` (routes.ts lines 58-72): probe the fixed
directory list crossed with the fixed extension list, first hit wins. -/
def componentExtensions : List String := [".tsx", ".jsx", ".ts", ".js"]

/-- The fixed candidate directories of `findComponentFile`. -/
def componentDirectories : List String := ["src/components", "src/pages", "src"]

/-- The probing loop of `findComponentFile`. -/
def findComponentFile (fs : FS) (projectPath component : String) : Option String :=
  componentDirectories.findSome? fun dir =>
    componentExtensions.findSome? fun ext =>
      let filePath := pathJoin [projectPath, dir, component ++ ext]
      if fsExists fs filePath then some filePath else none

/-- `transformRoute` (routes.ts lines 27-56).  In dry-run mode it only
logs the intended page path and returns; otherwise it locates the
component file (skipping the route with a warning when absent), splices
the content and writes the page file. -/
def transformRoute (mig : MigrateFn) (tfm : ComponentFn) (projectPath : String)
    (route : RouteInfo) (dryRun : Bool) (fs : FS) : FS :=
  let pagePath := pathJoin [projectPath, "src/app", nextPath route.path, "page.tsx"]
  if dryRun then fs
  else
    match findComponentFile fs projectPath route.component with
    | none => fs
    | some componentPath =>
      match lookupA fs.files componentPath with
      | some (.text componentContent) =>
        let migrated := mig projectPath fs componentContent route
        let nextContent := tfm migrated.2 route
        fsWrite (fsEnsureDir migrated.1 (dirname pagePath)) pagePath (.text nextContent)
      | _ => fs

/-- The root-layout text written by `createRootLayout` (routes.ts 101-119). -/
def rootLayoutContent : String :=
  "\nimport \x7b Metadata \x7d from \x27next\x27\n\nexport const metadata: Metadata = \x7b\n  title: \x27My Next.js App\x27,\n  description: \x27Migrated from Vite\x27,\n\x7d\n\nexport default function RootLayout(\x7b\n  children,\n\x7d: \x7b\n  children: React.ReactNode\n\x7d) \x7b\n  return (\n    <html lang=\x22en\x22>\n      <body>\x7bchildren\x7d</body>\n    </html>\n  )\n\x7d"

/-- `createRootLayout` (routes.ts lines 100-129). -/
def createRootLayout (appDir : String) (dryRun : Bool) (fs : FS) : FS :=
  let layoutPath := pathJoin [appDir, "layout.tsx"]
  if dryRun then fs
  else fsWrite fs layoutPath (.text rootLayoutContent)

/-- `transformRoutes` (routes.ts lines 5-25): ensure the app directory
(real mode only), rewrite each route in order, then emit the root
layout once. -/
def transformRoutes (mig : MigrateFn) (tfm : ComponentFn) (projectPath : String)
    (analysis : CodebaseAnalysis) (dryRun : Bool) (fs : FS) : FS :=
  let appDir := pathJoin [projectPath, "src/app"]
  let fs₀ := if dryRun then fs else fsEnsureDir fs appDir
  let fs₁ := analysis.routing.routes.foldl
    (fun acc route => transformRoute mig tfm projectPath route dryRun acc) fs₀
  createRootLayout appDir dryRun fs₁

/-! ## Build-config rewriter (transformViteConfig, src/unnamed/part_001) -/

/-- `generateNextConfig`: the synthesized `next.config.js` body built
from the alias map, the environment map and the free-text suggestion. -/
def generateNextConfig (config : ConfigurationAnalysis) : String :=
  let aliasLines := String.intercalate ",\n      "
    (config.viteConfig.aliases.map fun kv =>
      "\x27" ++ kv.1 ++ "\x27: \x27" ++ kv.2 ++ "\x27")
  let envLines := String.intercalate ",\n    "
    (config.viteConfig.environment.map fun kv =>
      "\x27" ++ kv.1 ++ "\x27: \x27" ++ kv.2 ++ "\x27")
  "/** @type \x7bimport(\x27next\x27).NextConfig\x7d */\nconst nextConfig = \x7b\n  webpack: (config) => \x7b\n    config.resolve.alias = \x7b\n      ...config.resolve.alias,\n      " ++ aliasLines ++ "\n    \x7d;\n    return config;\n  \x7d,\n  env: \x7b\n    " ++ envLines ++ "\n  \x7d,\n  // Additional Next.js config from analysis\n  " ++ config.suggestedNextConfig ++ "\n\x7d;\n\nmodule.exports = nextConfig;\n"

/-- `transformViteConfig`: regenerate `next.config.js` wholesale; in
dry-run mode only print it. -/
def transformViteConfig (projectPath : String) (analysis : CodebaseAnalysis)
    (dryRun : Bool) (fs : FS) : FS :=
  let nextConfig := generateNextConfig analysis.configuration
  let configPath := pathJoin [projectPath, "next.config.js"]
  if dryRun then fs
  else fsWrite fs configPath (.text nextConfig)

/-! ## Manifest rewriter (transformPackageJson, src/unnamed/part_001) -/

/-- The fixed Next.js runtime dependencies added by the rewriter. -/
def nextDependencies : List (String × String) :=
  [("next", "^14.0.0"), ("react", "^18.2.0"), ("react-dom", "^18.2.0")]

/-- The fixed script commands merged into the manifest. -/
def nextScripts : List (String × String) :=
  [("dev", "next dev"), ("build", "next build"),
   ("start", "next start"), ("lint", "next lint")]

/-- The pure manifest rewrite of `transformPackageJson` (lines 337-362):
delete every classifier-flagged name from both dependency maps, spread
in the fixed Next.js dependencies, spread the fixed commands over the
existing scripts. -/
def transformPackageJsonPure (pkg : PackageJson) (viteSpecific : List String) :
    PackageJson :=
  { dependencies := mergeA (eraseAll pkg.dependencies viteSpecific) nextDependencies
    devDependencies := eraseAll pkg.devDependencies viteSpecific
    scripts := mergeA pkg.scripts nextScripts }

/-- `transformPackageJson` (lines 329-370): read the manifest (a missing
or malformed file makes `fs.readJson` throw), rewrite it, and in real
mode write it back. -/
def transformPackageJson (projectPath : String) (analysis : CodebaseAnalysis)
    (dryRun : Bool) (fs : FS) : Except String Unit × FS :=
  match lookupA fs.files (pathJoin [projectPath, "package.json"]) with
  | some (.json pkg) =>
    if dryRun then (.ok (), fs)
    else (.ok (), fsWrite fs (pathJoin [projectPath, "package.json"])
      (.json (transformPackageJsonPure pkg analysis.dependencies.viteSpecific)))
  | _ => (.error "readJson package.json failed", fs)

/-! ## State-management rewriter (transformStateManagement, part_001) -/

/-- The Redux wrapper file content emitted by `transformRedux`. -/
def reduxWrapperContent : String :=
  "\nimport \x7b createWrapper \x7d from \x27next-redux-wrapper\x27;\nimport \x7b store \x7d from \x27./store\x27;\n\nexport const wrapper = createWrapper(() => store);\n"

/-- `transformRedux`: in dry-run mode log and return before any write;
otherwise write the wrapper, then rewrite each store file with the two
literal `replace` substitutions. -/
def transformRedux (projectPath : String) (storeLocations : List String)
    (dryRun : Bool) (fs : FS) : FS :=
  let wrapperPath := pathJoin [projectPath, "src/lib/redux-wrapper.ts"]
  if dryRun then fs
  else
    let fs₁ := fsWrite (fsEnsureDir fs (dirname wrapperPath)) wrapperPath
      (.text reduxWrapperContent)
    storeLocations.foldl
      (fun acc storePath =>
        let full := pathJoin [projectPath, storePath]
        match lookupA acc.files full with
        | some (.text content) =>
          let updated :=
            (content.replace "import \x7b configureStore \x7d"
              "import \x7b configureStore, ThunkAction, Action \x7d").replace
              "export const store = " "export const store = configureStore"
          fsWrite acc full (.text updated)
        | _ => acc)
      fs₁

/-- `transformZustand`: the source body is empty (placeholder). -/
def transformZustand (_projectPath : String) (_storeLocations : List String)
    (_dryRun : Bool) (fs : FS) : FS :=
  fs

/-- `transformContext`: the source body is empty (placeholder). -/
def transformContext (_projectPath : String) (_storeLocations : List String)
    (_dryRun : Bool) (fs : FS) : FS :=
  fs

/-- `transformStateManagement`: dispatch on the detected idiom; the
default branch only logs. -/
def transformStateManagement (projectPath : String) (analysis : CodebaseAnalysis)
    (dryRun : Bool) (fs : FS) : FS :=
  match analysis.stateManagement.type with
  | "redux" => transformRedux projectPath analysis.stateManagement.storeLocations dryRun fs
  | "zustand" => transformZustand projectPath analysis.stateManagement.storeLocations dryRun fs
  | "context" => transformContext projectPath analysis.stateManagement.storeLocations dryRun fs
  | _ => fs

/-! ## Test-import rewriter (src/transformers/tests.ts)

The Babel parser and printer are abstracted as a parameter pair; a
`parse` result of `none` models a syntax error (which the source does
not catch, so it aborts the whole run).  Both `traverse` passes of the
source have empty visitor bodies, so the AST is regenerated unchanged. -/

/-- The abstracted Babel interface. -/
structure Babel : Type 1 where
  AST : Type
  parse : String → Option AST
  gen : AST → String

/-- The glob pattern `**/*.test.\x7bjs,jsx,ts,tsx\x7d`. -/
def isTestFile (p : String) : Bool :=
  jsEndsWith p ".test.js" || jsEndsWith p ".test.jsx" ||
    jsEndsWith p ".test.ts" || jsEndsWith p ".test.tsx"

/-- The per-file loop of `transformTestFiles`: read, parse, regenerate,
and (in real mode) write back.  An unreadable or unparseable file throws
and aborts the remaining files, keeping the writes made so far. -/
def transformTestFilesGo (B : Babel) (dryRun : Bool) :
    List String → FS → Except String Unit × FS
  | [], fs => (.ok (), fs)
  | tf :: rest, fs =>
    match lookupA fs.files tf with
    | some (.text content) =>
      match B.parse content with
      | none => (.error "babel parse error", fs)
      | some ast =>
        let code := B.gen ast
        let fs₁ := if dryRun then fs else fsWrite fs tf (.text code)
        transformTestFilesGo B dryRun rest fs₁
    | _ => (.error "readFile failed", fs)

/-- `transformTestFiles` (tests.ts lines 8-47): glob the test files once
up front, then process each in order. -/
def transformTestFiles (B : Babel) (_projectPath : String) (dryRun : Bool)
    (fs : FS) : Except String Unit × FS :=
  let testFiles := (keysA fs.files).filter isTestFile
  transformTestFilesGo B dryRun testFiles fs

/-! ## Dependency classifier of the advisory analyzer (src/utils/aiAnalyzer.ts) -/

/-- The dependency names visible to the classifier: JS spread of the
`dependencies` and `devDependencies` maps, then `Object.keys`. -/
def depKeys (pkg : PackageJson) : List String :=
  keysA (mergeA pkg.dependencies pkg.devDependencies)

/-- The predicate of `findViteSpecificDeps` (aiAnalyzer.ts line 163):
`dep.includes(\x27vite\x27) || dep.includes(\x27rollup\x27)`. -/
def isViteSpecificName (dep : String) : Bool :=
  jsIncludes dep "vite" || jsIncludes dep "rollup"

/-- `findViteSpecificDeps` (aiAnalyzer.ts lines 161-164). -/
def findViteSpecificDeps (pkg : PackageJson) : List String :=
  (depKeys pkg).filter isViteSpecificName

/-- `findNextCompatibleDeps` (aiAnalyzer.ts lines 166-169): the
complement, computed through membership in the recomputed list. -/
def findNextCompatibleDeps (pkg : PackageJson) : List String :=
  (depKeys pkg).filter (fun dep => !((findViteSpecificDeps pkg).contains dep))

/-- `AIAnalyzer.analyzeDependencies` (aiAnalyzer.ts lines 104-112); its
`packageJson` argument stands for `JSON.parse(codebase[..] || \x27\x7b\x7d\x27)`. -/
def analyzeDependenciesAI (pkg : PackageJson) : DependencyAnalysis :=
  { viteSpecific := findViteSpecificDeps pkg
    nextCompatible := findNextCompatibleDeps pkg
    requiresMigration := [] }

/-! ## Oracle-response extraction (src/utils/aiAnalyzer.ts) -/

/-- `detectRoutingType` (lines 139-144): a file-name containment probe. -/
def detectRoutingType (codebase : List (String × String)) : String :=
  if (keysA codebase).any (fun file => jsIncludes file "react-router") then
    "react-router"
  else "unknown"

/-- `extractRoutes` (lines 146-149): the source returns the empty list. -/
def extractRoutes (_codebase : List (String × String)) : List RouteInfo :=
  []

/-- `parseSuggestedStructure` (lines 151-154): keep the bullet lines. -/
def parseSuggestedStructure (content : String) : List String :=
  (jsSplit content '\n').filter (fun line => jsStartsWith line.trim "-")

/-- The test of the regular expression `/^\d+\./`. -/
def isNumberedLine (line : String) : Bool :=
  let ds := line.data.takeWhile Char.isDigit
  !ds.isEmpty && (line.data.drop ds.length).headD ' ' == '.'

/-- `parseMigrationSteps` (lines 156-159): keep the numbered lines. -/
def parseMigrationSteps (content : String) : List String :=
  (jsSplit content '\n').filter isNumberedLine

/-- Index of the first occurrence of `pat` in a character list. -/
def substrIdx (pat : List Char) : List Char → Option Nat
  | [] => if pat.isEmpty then some 0 else none
  | c :: rest =>
    if pat.isPrefixOf (c :: rest) then some 0
    else (substrIdx pat rest).map (· + 1)

/-- `parseConfigSuggestion` (lines 171-175): the body of the first
fenced `js` code block, or the empty string. -/
def parseConfigSuggestion (content : String) : String :=
  match substrIdx "```js\n".data content.data with
  | none => ""
  | some i =>
    let after := content.data.drop (i + 6)
    match substrIdx "\n```".data after with
    | none => ""
    | some j => ⟨after.take j⟩

/-- `analyzeRouting` (lines 84-102); `oracleContent` is the free text
returned by the advisory oracle for the routing prompt. -/
def analyzeRouting (codebase : List (String × String)) (oracleContent : String) :
    RoutingAnalysis :=
  { type := detectRoutingType codebase
    routes := extractRoutes codebase
    suggestedNextjsStructure := parseSuggestedStructure oracleContent
    migrationSteps := parseMigrationSteps oracleContent }

/-- `analyzeConfiguration` (lines 114-137); `oracleContent` is the
oracle text for the configuration prompt. -/
def analyzeConfiguration (oracleContent : String) : ConfigurationAnalysis :=
  { viteConfig := { plugins := [], aliases := [], environment := [], build := [] }
    environmentVariables := []
    buildConfiguration := []
    suggestedNextConfig := parseConfigSuggestion oracleContent }

/-- `convertToAIAnalysis` (aiAnalyzer.ts lines 177-194): repackage the
codebase analysis, hard-coding `requiresMigration` to the empty list. -/
def convertToAIAnalysis (analysis : CodebaseAnalysis) : AIAnalysis :=
  { routing :=
      { type := analysis.routing.type
        routes := analysis.routing.routes
        suggestedNextjsStructure := analysis.routing.suggestedNextjsStructure
        migrationSteps := analysis.routing.migrationSteps }
    dependencies :=
      { viteSpecific := analysis.dependencies.viteSpecific
        nextCompatible := analysis.dependencies.nextCompatible
        requiresMigration := [] }
    configuration :=
      { suggestedNextConfig := analysis.configuration.suggestedNextConfig } }

/-- `AIAnalyzer.analyzeCodebase` (lines 18-58): assemble the fixed
placeholder blocks with the routing, dependency and configuration
analyses, then convert.  `pkg` stands for the parsed manifest text and
the two oracle strings for the two network responses. -/
def analyzeCodebase (codebase : List (String × String)) (pkg : PackageJson)
    (routingOracle configOracle : String) : AIAnalysis :=
  let codebaseAnalysis : CodebaseAnalysis :=
    { routing := analyzeRouting codebase routingOracle
      stateManagement :=
        { type := "unknown", storeLocations := [], complexity := "low"
          suggestedApproach := "" }
      dataFetching := { patterns := [], apiEndpoints := [], suggestedNextjsApproach := [] }
      styling := { type := [], suggestedMigration := "" }
      dependencies := analyzeDependenciesAI pkg
      configuration := analyzeConfiguration configOracle }
  convertToAIAnalysis codebaseAnalysis

/-! ## Project analyzer (src/unnamed/part_000, ProjectAnalyzer)

The probed project directory is embedded as a record: the manifest field
encodes both `fs.pathExists(package.json)` (outer `Option`) and the
success of `fs.readJson` (inner `Option`); the two secondary manifests
encode existence plus content; every other probe goes through the
`fileExists` predicate. -/

/-- The project directory as seen by `ProjectAnalyzer`. -/
structure ProjState where
  packageJsonFile : Option (Option PackageJson)
  requirementsTxt : Option String
  pyprojectToml : Option String
  fileExists : String → Bool

/-- `checkCompatibility` (part_000 lines 153-160): the fixed denylist. -/
def incompatiblePackages : List String :=
  ["vite", "@vitejs/plugin-react", "@vitejs/plugin-vue"]

/-- The classifier flag of the deterministic analyzer. -/
def checkCompatibility (packageName : String) : Bool :=
  !(incompatiblePackages.contains packageName)

/-- The fixed substitute-suggestion table (part_000 lines 162-169). -/
def alternatives : List (String × String) :=
  [("vite", "next"), ("@vitejs/plugin-react", "@next/react"),
   ("react-router-dom", "next/router")]

/-- `suggestAlternative` (part_000 lines 162-169). -/
def suggestAlternative (packageName : String) : Option String :=
  lookupA alternatives packageName

/-- One `Dependency` record as built by `analyzeDependencies`. -/
def mkDependency (name version : String) : Dependency :=
  { name := name, version := version
    isCompatible := checkCompatibility name
    alternativePackage := suggestAlternative name }

/-- `parseTOML` (part_000 lines 239-242): the body is unimplemented and
returns `undefined`, so every downstream optional chain short-circuits. -/
def parseTOML (_content : String) : Option Unit :=
  none

/-- `readPyprojectToml` (part_000 lines 94-100). -/
def readPyprojectToml (st : ProjState) : Option Unit :=
  match st.pyprojectToml with
  | none => none
  | some content => parseTOML content

/-- The line filter of the `requirements.txt` branch of
`analyzeDependencies` (part_000 lines 121-137). -/
def requirementsLines (txt : String) : List String :=
  ((jsSplit txt '\n').map String.trim).filter
    (fun line => line != "" && !(jsStartsWith line "#"))

/-- `ProjectAnalyzer.analyzeDependencies` (part_000 lines 102-151).  The
`pyprojectToml` branch is dead because `parseTOML` returns `undefined`,
so only the manifest and `requirements.txt` contribute. -/
def analyzeDependenciesPA (pkg : PackageJson) (requirementsTxt : Option String) :
    List Dependency :=
  let fromPkg := (mergeA pkg.dependencies pkg.devDependencies).map
    (fun kv => mkDependency kv.1 kv.2)
  let fromReq :=
    match requirementsTxt with
    | none => []
    | some txt =>
      (requirementsLines txt).map fun line =>
        let parts := jsSplitEqEq line
        mkDependency (parts.headD "") ((parts.drop 1).headD "")
  fromPkg ++ fromReq

/-- `findTsConfig` (part_000 lines 171-177). -/
def findTsConfig (st : ProjState) (projectPath : String) : Option String :=
  let p := pathJoin [projectPath, "tsconfig.json"]
  if st.fileExists p then some p else none

/-- `findPythonConfig` (part_000 lines 179-185). -/
def findPythonConfig (st : ProjState) (projectPath : String) : Option String :=
  let p := pathJoin [projectPath, "pyproject.toml"]
  if st.fileExists p then some p else none

/-- `findTestConfig` (part_000 lines 187-199): jest first, pytest second. -/
def findTestConfig (st : ProjState) (projectPath : String) : Option String :=
  let jestPath := pathJoin [projectPath, "jest.config.js"]
  if st.fileExists jestPath then some jestPath
  else
    let pytestPath := pathJoin [projectPath, "pytest.ini"]
    if st.fileExists pytestPath then some pytestPath else none

/-- `findLintConfig` (part_000 lines 201-207). -/
def findLintConfig (st : ProjState) (projectPath : String) : Option String :=
  let p := pathJoin [projectPath, ".eslintrc"]
  if st.fileExists p then some p else none

/-- `findPrettierConfig` (part_000 lines 209-215). -/
def findPrettierConfig (st : ProjState) (projectPath : String) : Option String :=
  let p := pathJoin [projectPath, ".prettierrc"]
  if st.fileExists p then some p else none

/-- `findCiConfig` (part_000 lines 217-229): the workflow directory
convention is probed before the single-file convention. -/
def findCiConfig (st : ProjState) (projectPath : String) : Option String :=
  let githubCiPath := pathJoin [projectPath, ".github", "workflows"]
  if st.fileExists githubCiPath then some githubCiPath
  else
    let gitlabCiPath := pathJoin [projectPath, ".gitlab-ci.yml"]
    if st.fileExists gitlabCiPath then some gitlabCiPath else none

/-- `findContainerizationConfig` (part_000 lines 231-237). -/
def findContainerizationConfig (st : ProjState) (projectPath : String) :
    Option String :=
  let p := pathJoin [projectPath, "Dockerfile"]
  if st.fileExists p then some p else none

/-- `detectFramework` (part_000 lines 244-260).  The version strings are
read through JS truthiness; the `pyprojectToml` probe is dead because
`parseTOML` yields `undefined`. -/
def detectFramework (pkg : PackageJson) (pyprojectToml : Option Unit) : String :=
  let hasViteInDeps :=
    truthy (lookupA pkg.dependencies "vite") ||
      truthy (lookupA pkg.devDependencies "vite")
  let hasVitePluginReact :=
    truthy (lookupA pkg.dependencies "@vitejs/plugin-react") ||
      truthy (lookupA pkg.devDependencies "@vitejs/plugin-react")
  if hasViteInDeps || hasVitePluginReact then "vite"
  else
    match pyprojectToml with
    | some _ => "unknown"
    | none => "unknown"

/-- The fixed probe patterns of `findConfigFiles` (part_000 262-282);
the caller-supplied extra patterns are appended. -/
def configPatterns (customConfigFiles : Option (List String)) : List String :=
  ["vite.config.ts", "vite.config.js", "tsconfig.json", ".env", ".env.*"] ++
    customConfigFiles.getD []

/-- `findConfigFiles`: keep each pattern whose joined path exists. -/
def findConfigFiles (st : ProjState) (projectPath : String)
    (customConfigFiles : Option (List String)) : List String :=
  (configPatterns customConfigFiles).filter
    (fun pattern => st.fileExists (pathJoin [projectPath, pattern]))

/-- The record returned by `performBasicAnalysis` (part_000 47-75),
before the aggregator adds the advisory fields. -/
structure BasicAnalysis where
  framework : String
  dependencies : List Dependency
  tsConfig : Option String
  pythonConfig : Option String
  testConfig : Option String
  lintConfig : Option String
  prettierConfig : Option String
  ciConfig : Option String
  containerizationConfig : Option String
  configFiles : List String
deriving DecidableEq

/-- `performBasicAnalysis` (part_000 lines 47-75), with the manifest
already read (the read itself happens in `analyzeProject` below, where
its failure aborts the run). -/
def performBasicAnalysis (st : ProjState) (projectPath : String)
    (pkg : PackageJson) (customConfigFiles : Option (List String)) :
    BasicAnalysis :=
  { framework := detectFramework pkg (readPyprojectToml st)
    dependencies := analyzeDependenciesPA pkg st.requirementsTxt
    tsConfig := findTsConfig st projectPath
    pythonConfig := findPythonConfig st projectPath
    testConfig := findTestConfig st projectPath
    lintConfig := findLintConfig st projectPath
    prettierConfig := findPrettierConfig st projectPath
    ciConfig := findCiConfig st projectPath
    containerizationConfig := findContainerizationConfig st projectPath
    configFiles := findConfigFiles st projectPath customConfigFiles }

/-- `analyzeProject` (part_000 lines 15-45).  A missing manifest fails
`isValidProject` and throws; a malformed one makes `fs.readJson` throw
inside `performBasicAnalysis`.  The advisory call is the `oracle`
argument: its `try`/`catch` is rendered by `Except.toOption`, so an
oracle failure leaves the advisory block absent and the run succeeds. -/
def analyzeProject (st : ProjState) (projectPath : String)
    (oracle : Except String AIAnalysis) (opts : ProjectAnalyzerOptions) :
    Except String ProjectAnalysis :=
  match st.packageJsonFile with
  | none => .error "Invalid project directory. Make sure package.json exists."
  | some none => .error "readJson package.json failed"
  | some (some pkg) =>
    let basic := performBasicAnalysis st projectPath pkg opts.config
    let aiAnalysis : Option AIAnalysis := if opts.skipAI then none else oracle.toOption
    .ok
      { framework := basic.framework
        dependencies := basic.dependencies
        tsConfig := basic.tsConfig
        pythonConfig := basic.pythonConfig
        testConfig := basic.testConfig
        lintConfig := basic.lintConfig
        prettierConfig := basic.prettierConfig
        ciConfig := basic.ciConfig
        containerizationConfig := basic.containerizationConfig
        configFiles := basic.configFiles
        routingStructure :=
          (aiAnalysis.map (fun ai => ai.routing.suggestedNextjsStructure)).getD []
        aiSuggestions := aiAnalysis }

/-! ## Migration planner (src/utils/migrationPlanner.ts) -/

/-- The unconditional scaffold step (planner lines 21-33). -/
def setupStep : MigrationStep :=
  { id := "1", title := "Setup Next.js Project"
    description := "Initialize a new Next.js project and set up the basic configuration"
    tasks := [{ id := "1.1", description := "Create new Next.js project"
                codeChanges := some "npx create-next-app@latest", resources := none }]
    estimatedTime := "1 hour" }

/-- The TypeScript-configuration step (planner lines 38-50). -/
def tsStep : MigrationStep :=
  { id := "2", title := "Migrate TypeScript Configuration"
    description := "Update tsconfig.json for Next.js compatibility"
    tasks := [{ id := "2.1", description := "Update tsconfig.json"
                codeChanges := some "// TODO: Provide updated tsconfig.json content"
                resources := none }]
    estimatedTime := "30 minutes" }

/-- The testing-setup step (planner lines 54-71). -/
def testStep : MigrationStep :=
  { id := "3", title := "Migrate Testing Setup"
    description := "Adapt testing configuration and tests for Next.js"
    tasks := [{ id := "3.1", description := "Update testing configuration"
                codeChanges := some "// TODO: Provide updated testing config content"
                resources := none },
              { id := "3.2", description := "Migrate existing tests"
                codeChanges := some "// TODO: Provide guidance on updating tests"
                resources := none }]
    estimatedTime := "2 hours" }

/-- The linting step (planner lines 75-87). -/
def lintStep : MigrationStep :=
  { id := "4", title := "Migrate Linting Configuration"
    description := "Update linting rules for Next.js"
    tasks := [{ id := "4.1", description := "Update linting config"
                codeChanges := some "// TODO: Provide updated linting config content"
                resources := none }]
    estimatedTime := "30 minutes" }

/-- The formatting step (planner lines 91-103). -/
def prettierStep : MigrationStep :=
  { id := "5", title := "Migrate Formatting Configuration"
    description := "Update Prettier config for Next.js"
    tasks := [{ id := "5.1", description := "Update Prettier config"
                codeChanges := some "// TODO: Provide updated Prettier config content"
                resources := none }]
    estimatedTime := "15 minutes" }

/-- The CI/CD step (planner lines 107-119). -/
def ciStep : MigrationStep :=
  { id := "6", title := "Migrate CI/CD Pipeline"
    description := "Adapt CI/CD configuration for Next.js"
    tasks := [{ id := "6.1", description := "Update CI/CD config"
                codeChanges := some "// TODO: Provide updated CI/CD config content"
                resources := none }]
    estimatedTime := "1 hour" }

/-- The containerization step (planner lines 123-135). -/
def containerizationStep : MigrationStep :=
  { id := "7", title := "Migrate Containerization Setup"
    description := "Update Dockerfile and related configs for Next.js"
    tasks := [{ id := "7.1", description := "Update Dockerfile"
                codeChanges := some "// TODO: Provide updated Dockerfile content"
                resources := none }]
    estimatedTime := "1 hour" }

/-- `generateSteps` (planner lines 19-141): the scaffold step followed
by one fixed step for each JS-truthy config field, in the fixed source
order.  The `pythonConfig` field is not consulted. -/
def generateSteps (a : ProjectAnalysis) : List MigrationStep :=
  [setupStep]
    ++ (if truthy a.tsConfig then [tsStep] else [])
    ++ (if truthy a.testConfig then [testStep] else [])
    ++ (if truthy a.lintConfig then [lintStep] else [])
    ++ (if truthy a.prettierConfig then [prettierStep] else [])
    ++ (if truthy a.ciConfig then [ciStep] else [])
    ++ (if truthy a.containerizationConfig then [containerizationStep] else [])

/-- `generateMigrationPlan` (planner lines 10-17) with its fixed
estimates. -/
def generateMigrationPlan (a : ProjectAnalysis) : MigrationPlan :=
  { steps := generateSteps a
    estimatedTime := "8 hours"
    estimatedCost := 1000
    complexity := "Medium" }

/-! ## Association-list lemmas -/

theorem lookupA_setA {α : Type} (m : List (String × α)) (k n : String) (v : α) :
    lookupA (setA m k v) n = if k = n then some v else lookupA m n := by
  induction m with
  | nil =>
    by_cases h : k = n <;> simp [setA, lookupA, h]
  | cons kv rest ih =>
    obtain ⟨k₁, v₁⟩ := kv
    by_cases h₁ : k₁ = k
    · subst h₁
      simp only [setA, if_pos rfl, lookupA]
      by_cases h₂ : k₁ = n <;> simp [lookupA, h₂]
    · simp only [setA, if_neg h₁, lookupA]
      by_cases h₂ : k₁ = n
      · have hkn : ¬ k = n := fun hk => h₁ (h₂.trans hk.symm)
        simp [h₂, hkn]
      · simp [h₂, ih]

theorem setA_same {α : Type} (m : List (String × α)) (k : String) (v : α)
    (h : lookupA m k = some v) : setA m k v = m := by
  induction m with
  | nil => simp [lookupA] at h
  | cons kv rest ih =>
    obtain ⟨k₁, v₁⟩ := kv
    by_cases h₁ : k₁ = k
    · subst h₁
      obtain rfl : v₁ = v := by simpa [lookupA] using h
      simp [setA]
    · simp only [lookupA, if_neg h₁] at h
      simp [setA, h₁, ih h]

theorem keysA_setA {α : Type} (m : List (String × α)) (k : String) (v w : α)
    (h : lookupA m k = some w) : keysA (setA m k v) = keysA m := by
  induction m with
  | nil => simp [lookupA] at h
  | cons kv rest ih =>
    obtain ⟨k₁, v₁⟩ := kv
    by_cases h₁ : k₁ = k
    · simp [setA, keysA, h₁]
    · simp only [lookupA, if_neg h₁] at h
      have hrest := ih h
      unfold keysA at hrest ⊢
      simp only [setA, if_neg h₁, List.map_cons]
      rw [hrest]

theorem lookupA_eraseA {α : Type} (m : List (String × α)) (k n : String) :
    lookupA (eraseA m k) n = if k = n then none else lookupA m n := by
  induction m with
  | nil => by_cases h : k = n <;> simp [eraseA, lookupA, h]
  | cons kv rest ih =>
    obtain ⟨k₁, v₁⟩ := kv
    have hfc : eraseA ((k₁, v₁) :: rest) k =
        if (k₁ != k) = true then (k₁, v₁) :: eraseA rest k else eraseA rest k := by
      simp [eraseA, List.filter_cons]
    by_cases h₁ : k₁ = k
    · rw [hfc, if_neg (by simp [h₁])]
      rw [ih]
      by_cases h₂ : k = n
      · simp [h₂]
      · have hk₁n : ¬ k₁ = n := fun hx => h₂ (h₁.symm.trans hx)
        simp [lookupA, h₂, hk₁n]
    · rw [hfc, if_pos (by simp [h₁])]
      simp only [lookupA]
      by_cases h₂ : k₁ = n
      · have hkn : ¬ k = n := fun hk => h₁ (h₂.trans hk.symm)
        simp [h₂, hkn]
      · simp [h₂, ih]

theorem lookupA_eraseAll {α : Type} (names : List String)
    (m : List (String × α)) (n : String) :
    lookupA (eraseAll m names) n =
      if names.contains n then none else lookupA m n := by
  induction names generalizing m with
  | nil => simp [eraseAll, lookupA, List.contains]
  | cons nm rest ih =>
    have step : eraseAll m (nm :: rest) = eraseAll (eraseA m nm) rest := rfl
    rw [step, ih, lookupA_eraseA]
    by_cases h₂ : nm = n
    · simp [List.contains_cons, h₂]
    · have h₂' : ¬ n = nm := fun h => h₂ h.symm
      by_cases h₁ : n ∈ rest <;>
        simp [List.contains_cons, h₁, h₂, h₂', List.elem_iff]

theorem lookupA_mapValues {α : Type} (m : List (String × α))
    (f : String → α → α) (n : String) :
    lookupA (m.map fun kv => (kv.1, f kv.1 kv.2)) n =
      (lookupA m n).map (f n) := by
  induction m with
  | nil => simp [lookupA]
  | cons kv rest ih =>
    obtain ⟨k₁, v₁⟩ := kv
    by_cases h : k₁ = n
    · subst h; simp [lookupA]
    · simp [lookupA, h, ih]

theorem lookupA_append {α : Type} (xs ys : List (String × α)) (n : String) :
    lookupA (xs ++ ys) n =
      match lookupA xs n with
      | some v => some v
      | none => lookupA ys n := by
  induction xs with
  | nil => simp [lookupA]
  | cons kv rest ih =>
    obtain ⟨k₁, v₁⟩ := kv
    by_cases h : k₁ = n <;> simp [lookupA, h, ih]

theorem lookupA_filterAbsent {α : Type} (a b : List (String × α)) (n : String) :
    lookupA (b.filter fun kv => (lookupA a kv.1).isNone) n =
      if (lookupA a n).isNone then lookupA b n else none := by
  induction b with
  | nil => simp [lookupA]
  | cons kv rest ih =>
    obtain ⟨k₁, v₁⟩ := kv
    by_cases h : k₁ = n
    · subst h
      by_cases ha : (lookupA a k₁).isNone = true <;>
        simp [List.filter_cons, lookupA, ha, ih]
    · by_cases ha : (lookupA a k₁).isNone = true <;>
        simp [List.filter_cons, lookupA, h, ha, ih]

theorem lookupA_mergeA {α : Type} (a b : List (String × α)) (n : String) :
    lookupA (mergeA a b) n =
      match lookupA a n with
      | some v => some ((lookupA b n).getD v)
      | none => lookupA b n := by
  unfold mergeA
  rw [lookupA_append]
  rw [lookupA_mapValues a (fun k v => (lookupA b k).getD v) n]
  rw [lookupA_filterAbsent]
  cases h : lookupA a n <;> simp

theorem lookupA_eq_none_iff {α : Type} (m : List (String × α)) (n : String) :
    lookupA m n = none ↔ ¬ n ∈ keysA m := by
  induction m with
  | nil => simp [lookupA, keysA]
  | cons kv rest ih =>
    obtain ⟨k₁, v₁⟩ := kv
    by_cases h : k₁ = n
    · simp [lookupA, keysA, h]
    · have h' : ¬ n = k₁ := fun hx => h hx.symm
      simp [lookupA, keysA, h, h', ih]

/-! ## Segment-translation lemmas -/

/-- A path segment using the parameter convention: its first character
is `:` (the shape tested by `segment.startsWith(\x27:\x27)`). -/
def isParamSegment (s : String) : Bool :=
  s.data.head? == some ':'

theorem isParamSegment_shape (s : String) (h : isParamSegment s = true) :
    ∃ x, s.data = ':' :: x := by
  unfold isParamSegment at h
  cases hd : s.data with
  | nil => rw [hd] at h; simp at h
  | cons c cs =>
    rw [hd] at h
    simp at h
    exact ⟨cs, by rw [h]⟩

theorem toNextSegment_param (x : List Char) :
    toNextSegment ⟨':' :: x⟩ = ⟨'[' :: x ++ [']']⟩ :=
  rfl

theorem toNextSegment_param_inj (a b : String)
    (ha : isParamSegment a = true) (hb : isParamSegment b = true)
    (h : toNextSegment a = toNextSegment b) : a = b := by
  obtain ⟨x, hx⟩ := isParamSegment_shape a ha
  obtain ⟨y, hy⟩ := isParamSegment_shape b hb
  have ha' : a = ⟨':' :: x⟩ := by cases a; simp_all
  have hb' : b = ⟨':' :: y⟩ := by cases b; simp_all
  subst ha'; subst hb'
  rw [toNextSegment_param, toNextSegment_param] at h
  have hdata : '[' :: x ++ [']'] = '[' :: y ++ [']'] := congrArg String.data h
  have htail : x ++ [']'] = y ++ [']'] := by injection hdata
  have hxy : x = y := List.append_cancel_right htail
  rw [hxy]

theorem map_toNextSegment_inj (l₁ l₂ : List String)
    (hrel : List.Forall₂
      (fun a b => a = b ∨ (isParamSegment a = true ∧ isParamSegment b = true)) l₁ l₂)
    (hmap : l₁.map toNextSegment = l₂.map toNextSegment) : l₁ = l₂ := by
  induction hrel with
  | nil => rfl
  | @cons a b la lb hab htail ih =>
    simp only [List.map_cons, List.cons.injEq] at hmap
    have hab' : a = b := by
      cases hab with
      | inl h => exact h
      | inr h => exact toNextSegment_param_inj _ _ h.1 h.2 hmap.1
    rw [hab', ih hmap.2]

/-! ## Injectivity of the slash-join over slash-free segments

These lemmas lift segment-sequence distinctness to distinctness of the
joined target-path strings produced by `nextPath`. -/

theorem splitOnChar_not_mem (c : Char) :
    ∀ (l : List Char) (seg : List Char), seg ∈ splitOnChar c l → ¬ c ∈ seg := by
  intro l
  induction l with
  | nil =>
    intro seg hseg
    simp [splitOnChar] at hseg
    simp [hseg]
  | cons x xs ih =>
    intro seg hseg
    by_cases hx : x = c
    · simp only [splitOnChar, if_pos hx] at hseg
      rcases List.mem_cons.mp hseg with rfl | hmem
      · simp
      · exact ih seg hmem
    · simp only [splitOnChar, if_neg hx] at hseg
      cases hsp : splitOnChar c xs with
      | nil =>
        rw [hsp] at hseg
        simp at hseg
        subst hseg
        intro hm
        exact hx (List.mem_singleton.mp hm).symm
      | cons s₀ rest =>
        rw [hsp] at hseg
        rcases List.mem_cons.mp hseg with rfl | hmem
        · intro hm
          rcases List.mem_cons.mp hm with rfl | hm'
          · exact hx rfl
          · exact ih s₀ (by rw [hsp]; exact List.mem_cons_self s₀ rest) hm'
        · exact ih seg (by rw [hsp]; exact List.mem_cons_of_mem s₀ hmem)

/-- The character-level result of joining segments with `/`. -/
def glueSegs : List (List Char) → List Char
  | [] => []
  | a :: as => a ++ (as.map (fun x => '/' :: x)).flatten

theorem intercalate_go_data (s : String) :
    ∀ (as : List String) (acc : String),
      (String.intercalate.go acc s as).data =
        acc.data ++ (as.map (fun x => s.data ++ x.data)).flatten := by
  intro as
  induction as with
  | nil => intro acc; simp [String.intercalate.go]
  | cons b bs ih =>
    intro acc
    rw [show String.intercalate.go acc s (b :: bs) =
        String.intercalate.go (acc ++ s ++ b) s bs from rfl, ih]
    simp [String.data_append]

theorem intercalate_slash_data (l : List String) :
    (String.intercalate "/" l).data = glueSegs (l.map String.data) := by
  cases l with
  | nil => rfl
  | cons a as =>
    rw [show String.intercalate "/" (a :: as) = String.intercalate.go a "/" as from rfl,
      intercalate_go_data]
    simp only [List.map_cons, glueSegs, List.map_map]
    rfl

theorem append_sep_inj :
    ∀ (a b r₁ r₂ : List Char), ¬ '/' ∈ a → ¬ '/' ∈ b →
      (r₁ = [] ∨ ∃ t, r₁ = '/' :: t) → (r₂ = [] ∨ ∃ t, r₂ = '/' :: t) →
      a ++ r₁ = b ++ r₂ → a = b ∧ r₁ = r₂ := by
  intro a
  induction a with
  | nil =>
    intro b r₁ r₂ _ hb h₁ h₂ h
    cases b with
    | nil => exact ⟨rfl, h⟩
    | cons d b' =>
      simp only [List.nil_append, List.cons_append] at h
      rcases h₁ with rfl | ⟨t, rfl⟩
      · cases h
      · have hd : d = '/' := by injection h with h' _; exact h'.symm
        exact absurd (hd ▸ List.mem_cons_self d b') hb
  | cons c a' ih =>
    intro b r₁ r₂ ha hb h₁ h₂ h
    cases b with
    | nil =>
      simp only [List.cons_append, List.nil_append] at h
      rcases h₂ with rfl | ⟨t, rfl⟩
      · cases h
      · have hc : c = '/' := by injection h with h' _
        exact absurd (hc ▸ List.mem_cons_self c a') ha
    | cons d b' =>
      simp only [List.cons_append, List.cons.injEq] at h
      obtain ⟨hcd, htail⟩ := h
      have ha' : ¬ '/' ∈ a' := fun hm => ha (List.mem_cons_of_mem _ hm)
      have hb' : ¬ '/' ∈ b' := fun hm => hb (List.mem_cons_of_mem _ hm)
      obtain ⟨h1, h2⟩ := ih b' r₁ r₂ ha' hb' h₁ h₂ htail
      exact ⟨by rw [hcd, h1], h2⟩

theorem sep_tail_shape (as : List (List Char)) :
    (as.map (fun x => '/' :: x)).flatten = [] ∨
      ∃ t, (as.map (fun x => '/' :: x)).flatten = '/' :: t := by
  cases as with
  | nil => exact Or.inl rfl
  | cons x xs =>
    refine Or.inr ⟨x ++ (xs.map (fun z => '/' :: z)).flatten, ?_⟩
    rfl

theorem sepjoin_inj :
    ∀ (as bs : List (List Char)), (∀ x ∈ as, ¬ '/' ∈ x) → (∀ x ∈ bs, ¬ '/' ∈ x) →
      (as.map (fun x => '/' :: x)).flatten = (bs.map (fun x => '/' :: x)).flatten →
      as = bs := by
  intro as
  induction as with
  | nil =>
    intro bs _ _ h
    cases bs with
    | nil => rfl
    | cons y ys => simp at h
  | cons x xs ih =>
    intro bs hx hy h
    cases bs with
    | nil => simp at h
    | cons y ys =>
      simp only [List.map_cons, List.flatten_cons, List.cons_append, List.cons.injEq,
        true_and] at h
      have hx₀ : ¬ '/' ∈ x := hx x (List.mem_cons_self x xs)
      have hy₀ : ¬ '/' ∈ y := hy y (List.mem_cons_self y ys)
      obtain ⟨h1, h2⟩ := append_sep_inj x y _ _ hx₀ hy₀ (sep_tail_shape xs)
        (sep_tail_shape ys) h
      rw [h1, ih ys (fun z hz => hx z (List.mem_cons_of_mem _ hz))
        (fun z hz => hy z (List.mem_cons_of_mem _ hz)) h2]

theorem glueSegs_inj :
    ∀ (as bs : List (List Char)),
      (∀ x ∈ as, x ≠ [] ∧ ¬ '/' ∈ x) → (∀ x ∈ bs, x ≠ [] ∧ ¬ '/' ∈ x) →
      glueSegs as = glueSegs bs → as = bs := by
  intro as bs has hbs h
  cases as with
  | nil =>
    cases bs with
    | nil => rfl
    | cons y ys =>
      exfalso
      simp only [glueSegs] at h
      exact (hbs y (List.mem_cons_self y ys)).1 (List.append_eq_nil.mp h.symm).1
  | cons x xs =>
    cases bs with
    | nil =>
      exfalso
      simp only [glueSegs] at h
      exact (has x (List.mem_cons_self x xs)).1 (List.append_eq_nil.mp h).1
    | cons y ys =>
      simp only [glueSegs] at h
      obtain ⟨h1, h2⟩ := append_sep_inj x y _ _
        (has x (List.mem_cons_self x xs)).2 (hbs y (List.mem_cons_self y ys)).2
        (sep_tail_shape xs) (sep_tail_shape ys) h
      rw [h1, sepjoin_inj xs ys
        (fun z hz => (has z (List.mem_cons_of_mem _ hz)).2)
        (fun z hz => (hbs z (List.mem_cons_of_mem _ hz)).2) h2]

theorem intercalate_slash_inj (l₁ l₂ : List String)
    (h₁ : ∀ x ∈ l₁, x ≠ "" ∧ ¬ '/' ∈ x.data)
    (h₂ : ∀ x ∈ l₂, x ≠ "" ∧ ¬ '/' ∈ x.data)
    (h : String.intercalate "/" l₁ = String.intercalate "/" l₂) : l₁ = l₂ := by
  have hdata := congrArg String.data h
  rw [intercalate_slash_data, intercalate_slash_data] at hdata
  have hmaps : l₁.map String.data = l₂.map String.data := by
    apply glueSegs_inj
    · intro x hx
      obtain ⟨s, hs, rfl⟩ := List.mem_map.mp hx
      refine ⟨fun hd => (h₁ s hs).1 ?_, (h₁ s hs).2⟩
      cases s
      simp_all
    · intro x hx
      obtain ⟨s, hs, rfl⟩ := List.mem_map.mp hx
      refine ⟨fun hd => (h₂ s hs).1 ?_, (h₂ s hs).2⟩
      cases s
      simp_all
    · exact hdata
  have hinj : Function.Injective String.data := fun a b hab => String.ext hab
  exact List.map_injective_iff.mpr hinj hmaps

theorem pathSegments_props (p : String) :
    ∀ seg ∈ pathSegments p, seg ≠ "" ∧ ¬ '/' ∈ seg.data := by
  intro seg hseg
  obtain ⟨hmem, hne⟩ := List.mem_filter.mp hseg
  obtain ⟨l, hl, rfl⟩ := List.mem_map.mp hmem
  refine ⟨by simpa using hne, ?_⟩
  exact splitOnChar_not_mem '/' p.data l hl

theorem toNextSegment_props (s : String) (hs : s ≠ "") (hsl : ¬ '/' ∈ s.data) :
    toNextSegment s ≠ "" ∧ ¬ '/' ∈ (toNextSegment s).data := by
  unfold toNextSegment
  split
  next rest heq =>
    constructor
    · intro he
      have := congrArg String.data he
      simp at this
    · intro hm
      simp only [List.cons_append] at hm
      rcases List.mem_cons.mp hm with hbr | hm'
      · exact absurd hbr (by decide)
      · rcases List.mem_append.mp hm' with hin | hrb
        · exact hsl (heq ▸ List.mem_cons_of_mem ':' hin)
        · exact absurd (List.mem_singleton.mp hrb) (by decide)
  next => exact ⟨hs, hsl⟩

/-! ## Concrete inputs used by the counterexamples and witnesses -/

/-- An analysis in which only the secondary-ecosystem config field is
non-null. -/
def pythonOnlyAnalysis : ProjectAnalysis :=
  { framework := "vite", dependencies := [], tsConfig := none
    pythonConfig := some "/proj/pyproject.toml", testConfig := none
    lintConfig := none, prettierConfig := none, ciConfig := none
    containerizationConfig := none, configFiles := [], routingStructure := []
    aiSuggestions := none }

/-- An analysis in which exactly the type-check and CI config fields are
non-null. -/
def tsCiAnalysis : ProjectAnalysis :=
  { framework := "vite", dependencies := [], tsConfig := some "/proj/tsconfig.json"
    pythonConfig := none, testConfig := none, lintConfig := none
    prettierConfig := none, ciConfig := some "/proj/.github/workflows"
    containerizationConfig := none, configFiles := [], routingStructure := []
    aiSuggestions := none }

/-- A small concrete manifest. -/
def samplePkg : PackageJson :=
  { dependencies := [("vite", "^4.0.0"), ("react", "^18.2.0")]
    devDependencies := [("rollup-plugin-terser", "^7.0.0")]
    scripts := [("dev", "vite"), ("deploy", "scp -r dist server:/srv")] }

/-- A project directory whose manifest exists and parses. -/
def validProjState : ProjState :=
  { packageJsonFile := some (some samplePkg), requirementsTxt := none
    pyprojectToml := none, fileExists := fun _ => false }

/-- A project directory with no `package.json`. -/
def absentManifestState : ProjState :=
  { packageJsonFile := none, requirementsTxt := none
    pyprojectToml := none, fileExists := fun _ => false }

/-- A project directory whose `package.json` exists but is malformed. -/
def malformedManifestState : ProjState :=
  { packageJsonFile := some none, requirementsTxt := none
    pyprojectToml := none, fileExists := fun _ => false }

/-- A route descriptor for `/users/:id`. -/
def userIdRoute : RouteInfo :=
  { path := "/users/:id", component := "UserProfile", hasParams := true
    hasQueryParams := false, hasLoaders := false }

/-- The same route shape with the parameter renamed. -/
def userUidRoute : RouteInfo :=
  { path := "/users/:uid", component := "UserDetail", hasParams := true
    hasQueryParams := false, hasLoaders := false }

/-! ## Claim theorems -/

/-- C1 (code_bug evaluation): on the colon-prefixed regex-constraint
segment `:id(\d+)`, the route translation yields `[id(\d+)]` and not the
`[id:\d+]` form the specification describes: in
`transformRouteParameters` the `startsWith(\x27:\x27)` branch fires first, so
the parenthesized-regex branch is unreachable for colon-prefixed
segments, while `transformRoute` itself has no regex branch at all.
The plain-parameter half of the claim does hold: `/users/:id` translates
to `users/[id]`. -/
theorem c1_regex_constraint_shadowed :
    transformRouteParameters "/posts/:id(\\d+)" = "/posts/[id(\\d+)]" ∧
    transformRouteParameters "/posts/:id(\\d+)" ≠ "/posts/[id:\\d+]" ∧
    transformRouteSegment ":id(\\d+)" = "[id(\\d+)]" ∧
    nextPath "/posts/:id(\\d+)" = "posts/[id(\\d+)]" ∧
    nextPath "/users/:id" = "users/[id]" :=
  ⟨by decide, by decide, by decide, by decide, by decide⟩

/-- C2: the classifier of `findViteSpecificDeps` and
`findNextCompatibleDeps` partitions the merged dependency key set: every
key lands in exactly one of the two result lists, and no key is dropped
or duplicated across the two classes. -/
theorem c2_classifier_partition :
    ∀ (pkg : PackageJson) (k : String),
      (k ∈ depKeys pkg ↔ k ∈ findViteSpecificDeps pkg ∨ k ∈ findNextCompatibleDeps pkg)
      ∧ ¬ (k ∈ findViteSpecificDeps pkg ∧ k ∈ findNextCompatibleDeps pkg) := by
  intro pkg k
  have hv : k ∈ findViteSpecificDeps pkg ↔
      k ∈ depKeys pkg ∧ isViteSpecificName k = true := by
    simp [findViteSpecificDeps, List.mem_filter]
  have hn : k ∈ findNextCompatibleDeps pkg ↔
      k ∈ depKeys pkg ∧ ¬ k ∈ findViteSpecificDeps pkg := by
    simp [findNextCompatibleDeps, List.mem_filter, List.elem_iff]
  constructor
  · constructor
    · intro hk
      by_cases hvite : isViteSpecificName k = true
      · exact Or.inl (hv.mpr ⟨hk, hvite⟩)
      · refine Or.inr (hn.mpr ⟨hk, fun hmem => hvite (hv.mp hmem).2⟩)
    · rintro (h | h)
      · exact (hv.mp h).1
      · exact (hn.mp h).1
  · rintro ⟨h1, h2⟩
    exact (hn.mp h2).2 h1

/-- Witness for C2 at a concrete manifest and the key `vite`. -/
theorem c2_classifier_partition_witness :
    ("vite" ∈ depKeys samplePkg ↔
      "vite" ∈ findViteSpecificDeps samplePkg ∨ "vite" ∈ findNextCompatibleDeps samplePkg)
    ∧ ¬ ("vite" ∈ findViteSpecificDeps samplePkg ∧ "vite" ∈ findNextCompatibleDeps samplePkg) :=
  c2_classifier_partition samplePkg "vite"

/-- C3 counterexample: an analysis whose only non-null auxiliary config
field is the secondary-ecosystem (`pythonConfig`) one still yields a
one-step plan — `generateSteps` never consults that field, so no step is
appended for this non-null category, contradicting the claim that every
non-null category contributes exactly one step. -/
theorem c3_python_config_counterexample :
    truthy pythonOnlyAnalysis.pythonConfig = true ∧
    (generateSteps pythonOnlyAnalysis).length = 1 ∧
    generateSteps pythonOnlyAnalysis = [setupStep] :=
  ⟨by decide, by decide, by decide⟩

/-- C3 (amended): the plan always starts with the fixed scaffold step
and then appends exactly one fixed-id step per JS-truthy config field
among type-check, test, lint, formatter, CI and containerization, in
that fixed order, with stable ids `2`-`7`; for an analysis in which only
the type-check and CI fields are set, the plan is exactly the scaffold,
type-check and CI steps.  The secondary-ecosystem field gates nothing. -/
theorem c3_plan_steps_amended :
    (∀ a : ProjectAnalysis,
      (generateSteps a).map MigrationStep.id =
        ["1"] ++ (if truthy a.tsConfig then ["2"] else [])
          ++ (if truthy a.testConfig then ["3"] else [])
          ++ (if truthy a.lintConfig then ["4"] else [])
          ++ (if truthy a.prettierConfig then ["5"] else [])
          ++ (if truthy a.ciConfig then ["6"] else [])
          ++ (if truthy a.containerizationConfig then ["7"] else []))
    ∧ (∀ a : ProjectAnalysis,
        truthy a.tsConfig = true → truthy a.ciConfig = true →
        truthy a.testConfig = false → truthy a.lintConfig = false →
        truthy a.prettierConfig = false → truthy a.containerizationConfig = false →
        generateSteps a = [setupStep, tsStep, ciStep]) := by
  constructor
  · intro a
    unfold generateSteps
    cases h1 : truthy a.tsConfig <;> cases h2 : truthy a.testConfig <;>
      cases h3 : truthy a.lintConfig <;> cases h4 : truthy a.prettierConfig <;>
      cases h5 : truthy a.ciConfig <;> cases h6 : truthy a.containerizationConfig <;>
      simp [h1, h2, h3, h4, h5, h6, setupStep, tsStep, testStep, lintStep,
        prettierStep, ciStep, containerizationStep]
  · intro a h1 h5 h2 h3 h4 h6
    unfold generateSteps
    simp [h1, h2, h3, h4, h5, h6]

/-- Witness for C3: the concrete type-check plus CI analysis yields the
three-step plan. -/
theorem c3_plan_steps_witness :
    generateSteps tsCiAnalysis = [setupStep, tsStep, ciStep] :=
  c3_plan_steps_amended.2 tsCiAnalysis (by decide) (by decide) (by decide)
    (by decide) (by decide) (by decide)

/-- C4: when the advisory oracle call fails, `analyzeProject` returns
the same analysis as a run that never consults the oracle; on a valid
project it still succeeds, with `aiSuggestions` absent, the routing
suggestions empty, and every deterministic field exactly that of
`performBasicAnalysis`. -/
theorem c4_oracle_failure_resilience :
    ∀ (st : ProjState) (projectPath e : String) (cfg : Option (List String)) (ni : Bool),
      analyzeProject st projectPath (.error e) ⟨cfg, false, ni⟩ =
        analyzeProject st projectPath (.error e) ⟨cfg, true, ni⟩
      ∧ ∀ pkg : PackageJson, st.packageJsonFile = some (some pkg) →
          analyzeProject st projectPath (.error e) ⟨cfg, false, ni⟩ =
            .ok { framework := (performBasicAnalysis st projectPath pkg cfg).framework
                  dependencies := (performBasicAnalysis st projectPath pkg cfg).dependencies
                  tsConfig := (performBasicAnalysis st projectPath pkg cfg).tsConfig
                  pythonConfig := (performBasicAnalysis st projectPath pkg cfg).pythonConfig
                  testConfig := (performBasicAnalysis st projectPath pkg cfg).testConfig
                  lintConfig := (performBasicAnalysis st projectPath pkg cfg).lintConfig
                  prettierConfig := (performBasicAnalysis st projectPath pkg cfg).prettierConfig
                  ciConfig := (performBasicAnalysis st projectPath pkg cfg).ciConfig
                  containerizationConfig :=
                    (performBasicAnalysis st projectPath pkg cfg).containerizationConfig
                  configFiles := (performBasicAnalysis st projectPath pkg cfg).configFiles
                  routingStructure := []
                  aiSuggestions := none } := by
  intro st projectPath e cfg ni
  constructor
  · unfold analyzeProject
    cases st.packageJsonFile with
    | none => rfl
    | some o =>
      cases o with
      | none => rfl
      | some pkg => rfl
  · intro pkg h
    unfold analyzeProject
    rw [h]
    rfl

/-- Witness for C4 on a concrete valid project and a failed oracle. -/
theorem c4_oracle_failure_witness :
    analyzeProject validProjState "/proj" (.error "network error") ⟨none, false, false⟩ =
      .ok { framework := (performBasicAnalysis validProjState "/proj" samplePkg none).framework
            dependencies := (performBasicAnalysis validProjState "/proj" samplePkg none).dependencies
            tsConfig := (performBasicAnalysis validProjState "/proj" samplePkg none).tsConfig
            pythonConfig := (performBasicAnalysis validProjState "/proj" samplePkg none).pythonConfig
            testConfig := (performBasicAnalysis validProjState "/proj" samplePkg none).testConfig
            lintConfig := (performBasicAnalysis validProjState "/proj" samplePkg none).lintConfig
            prettierConfig := (performBasicAnalysis validProjState "/proj" samplePkg none).prettierConfig
            ciConfig := (performBasicAnalysis validProjState "/proj" samplePkg none).ciConfig
            containerizationConfig :=
              (performBasicAnalysis validProjState "/proj" samplePkg none).containerizationConfig
            configFiles := (performBasicAnalysis validProjState "/proj" samplePkg none).configFiles
            routingStructure := []
            aiSuggestions := none } :=
  (c4_oracle_failure_resilience validProjState "/proj" "network error" none false).2
    samplePkg rfl

/-- C5: with `dryRun` set, none of the five rewriters changes the file
tree: the routes, build-config, manifest, state-management and
test-import rewriters all return the input filesystem unchanged, for
every project root, analysis snapshot and starting tree (and for every
choice of the abstracted splicing and Babel functions). -/
theorem c5_dry_run_preserves_fs :
    (∀ (mig : MigrateFn) (tfm : ComponentFn) (projectPath : String)
        (analysis : CodebaseAnalysis) (fs : FS),
        transformRoutes mig tfm projectPath analysis true fs = fs)
    ∧ (∀ (projectPath : String) (analysis : CodebaseAnalysis) (fs : FS),
        transformViteConfig projectPath analysis true fs = fs)
    ∧ (∀ (projectPath : String) (analysis : CodebaseAnalysis) (fs : FS),
        (transformPackageJson projectPath analysis true fs).2 = fs)
    ∧ (∀ (projectPath : String) (analysis : CodebaseAnalysis) (fs : FS),
        transformStateManagement projectPath analysis true fs = fs)
    ∧ (∀ (B : Babel) (projectPath : String) (fs : FS),
        (transformTestFiles B projectPath true fs).2 = fs) := by
  refine ⟨?_, ?_, ?_, ?_, ?_⟩
  · intro mig tfm projectPath analysis fs
    have hfold : ∀ (routes : List RouteInfo) (acc : FS),
        routes.foldl (fun acc route => transformRoute mig tfm projectPath route true acc)
          acc = acc := by
      intro routes
      induction routes with
      | nil => intro acc; rfl
      | cons r rs ih =>
        intro acc
        rw [List.foldl_cons,
          show transformRoute mig tfm projectPath r true acc = acc from rfl]
        exact ih acc
    calc transformRoutes mig tfm projectPath analysis true fs
        = analysis.routing.routes.foldl
            (fun acc route => transformRoute mig tfm projectPath route true acc) fs := rfl
      _ = fs := hfold _ fs
  · intro projectPath analysis fs
    rfl
  · intro projectPath analysis fs
    unfold transformPackageJson
    cases lookupA fs.files (pathJoin [projectPath, "package.json"]) with
    | none => rfl
    | some v =>
      cases v with
      | text s => rfl
      | json pkg => rfl
  · intro projectPath analysis fs
    unfold transformStateManagement
    split <;> rfl
  · intro B projectPath fs
    have hgo : ∀ (tfs : List String) (fs : FS),
        (transformTestFilesGo B true tfs fs).2 = fs := by
      intro tfs
      induction tfs with
      | nil => intro fs; rfl
      | cons tf rest ih =>
        intro fs
        cases h : lookupA fs.files tf with
        | none => simp [transformTestFilesGo, h]
        | some v =>
          cases v with
          | text content =>
            cases hp : B.parse content with
            | none => simp [transformTestFilesGo, h, hp]
            | some ast => simp [transformTestFilesGo, h, hp, ih]
          | json p => simp [transformTestFilesGo, h]
    exact hgo _ fs

/-- C6: the manifest rewrite removes every classifier-flagged name from
both dependency maps, installs the fixed Next.js runtime dependencies,
and merges the fixed script commands over the existing scripts by map
union: colliding script names take the fixed command, every other script
entry keeps its original command, and untouched runtime dependencies
keep their original versions. -/
theorem c6_manifest_rewrite :
    ∀ (pkg : PackageJson) (viteSpecific : List String) (n : String),
      (viteSpecific.contains n = true →
        lookupA (transformPackageJsonPure pkg viteSpecific).devDependencies n = none)
      ∧ (viteSpecific.contains n = true → ¬ n ∈ keysA nextDependencies →
          lookupA (transformPackageJsonPure pkg viteSpecific).dependencies n = none)
      ∧ lookupA (transformPackageJsonPure pkg viteSpecific).dependencies "next" =
          some "^14.0.0"
      ∧ lookupA (transformPackageJsonPure pkg viteSpecific).dependencies "react" =
          some "^18.2.0"
      ∧ lookupA (transformPackageJsonPure pkg viteSpecific).dependencies "react-dom" =
          some "^18.2.0"
      ∧ (¬ n ∈ keysA nextDependencies → viteSpecific.contains n = false →
          lookupA (transformPackageJsonPure pkg viteSpecific).dependencies n =
            lookupA pkg.dependencies n)
      ∧ lookupA (transformPackageJsonPure pkg viteSpecific).scripts "dev" = some "next dev"
      ∧ lookupA (transformPackageJsonPure pkg viteSpecific).scripts "build" = some "next build"
      ∧ lookupA (transformPackageJsonPure pkg viteSpecific).scripts "start" = some "next start"
      ∧ lookupA (transformPackageJsonPure pkg viteSpecific).scripts "lint" = some "next lint"
      ∧ (¬ n ∈ keysA nextScripts →
          lookupA (transformPackageJsonPure pkg viteSpecific).scripts n =
            lookupA pkg.scripts n) := by
  intro pkg viteSpecific n
  refine ⟨?_, ?_, ?_, ?_, ?_, ?_, ?_, ?_, ?_, ?_, ?_⟩
  · intro hv
    have hv' : n ∈ viteSpecific := List.elem_iff.mp hv
    simp only [transformPackageJsonPure]
    simp [lookupA_eraseAll, hv']
  · intro hv hnk
    have hv' : n ∈ viteSpecific := List.elem_iff.mp hv
    have hnone : lookupA nextDependencies n = none := (lookupA_eq_none_iff _ _).mpr hnk
    simp only [transformPackageJsonPure]
    simp [lookupA_mergeA, lookupA_eraseAll, hv', hnone]
  · simp only [transformPackageJsonPure]
    have hfix : lookupA nextDependencies "next" = some "^14.0.0" := by decide
    rw [lookupA_mergeA]
    cases h : lookupA (eraseAll pkg.dependencies viteSpecific) "next" <;> simp [h, hfix]
  · simp only [transformPackageJsonPure]
    have hfix : lookupA nextDependencies "react" = some "^18.2.0" := by decide
    rw [lookupA_mergeA]
    cases h : lookupA (eraseAll pkg.dependencies viteSpecific) "react" <;> simp [h, hfix]
  · simp only [transformPackageJsonPure]
    have hfix : lookupA nextDependencies "react-dom" = some "^18.2.0" := by decide
    rw [lookupA_mergeA]
    cases h : lookupA (eraseAll pkg.dependencies viteSpecific) "react-dom" <;>
      simp [h, hfix]
  · intro hnk hvf
    have hnone : lookupA nextDependencies n = none := (lookupA_eq_none_iff _ _).mpr hnk
    simp only [transformPackageJsonPure]
    rw [lookupA_mergeA, lookupA_eraseAll, hvf]
    cases h : lookupA pkg.dependencies n <;> simp [h, hnone]
  · simp only [transformPackageJsonPure]
    have hfix : lookupA nextScripts "dev" = some "next dev" := by decide
    rw [lookupA_mergeA]
    cases h : lookupA pkg.scripts "dev" <;> simp [h, hfix]
  · simp only [transformPackageJsonPure]
    have hfix : lookupA nextScripts "build" = some "next build" := by decide
    rw [lookupA_mergeA]
    cases h : lookupA pkg.scripts "build" <;> simp [h, hfix]
  · simp only [transformPackageJsonPure]
    have hfix : lookupA nextScripts "start" = some "next start" := by decide
    rw [lookupA_mergeA]
    cases h : lookupA pkg.scripts "start" <;> simp [h, hfix]
  · simp only [transformPackageJsonPure]
    have hfix : lookupA nextScripts "lint" = some "next lint" := by decide
    rw [lookupA_mergeA]
    cases h : lookupA pkg.scripts "lint" <;> simp [h, hfix]
  · intro hns
    have hnone : lookupA nextScripts n = none := (lookupA_eq_none_iff _ _).mpr hns
    simp only [transformPackageJsonPure]
    rw [lookupA_mergeA]
    cases h : lookupA pkg.scripts n <;> simp [h, hnone]

/-- Witness for C6 on the concrete manifest: `vite` is removed, the
custom non-colliding `deploy` script survives unchanged, and the
colliding `dev` script is replaced by the fixed command. -/
theorem c6_manifest_rewrite_witness :
    lookupA (transformPackageJsonPure samplePkg ["vite"]).dependencies "vite" = none
    ∧ lookupA (transformPackageJsonPure samplePkg ["vite"]).scripts "deploy" =
        some "scp -r dist server:/srv"
    ∧ lookupA (transformPackageJsonPure samplePkg ["vite"]).scripts "dev" =
        some "next dev" := by
  refine ⟨?_, ?_, ?_⟩
  · exact (c6_manifest_rewrite samplePkg ["vite"] "vite").2.1 (by decide) (by decide)
  · have h := (c6_manifest_rewrite samplePkg ["vite"] "deploy").2.2.2.2.2.2.2.2.2.2
      (by decide)
    rw [h]
    decide
  · exact (c6_manifest_rewrite samplePkg ["vite"] "dev").2.2.2.2.2.2.1

/-- C7 counterexample: with the manifest absent, `analyzeProject` throws
its invalid-project error instead of classifying an empty mapping; with
a malformed manifest, the `readJson` failure aborts the analysis. -/
theorem c7_missing_manifest_counterexample :
    analyzeProject absentManifestState "/proj" (.error "oracle down") ⟨none, false, false⟩ =
      .error "Invalid project directory. Make sure package.json exists."
    ∧ ∃ msg, analyzeProject malformedManifestState "/proj" (.error "oracle down")
        ⟨none, false, false⟩ = .error msg :=
  ⟨rfl, ⟨"readJson package.json failed", rfl⟩⟩

/-- C7 (amended): a missing or malformed manifest is fatal — the
analysis never proceeds over an empty dependency mapping; a missing
`package.json` fails the validity check with the fixed message and a
manifest that does not parse makes the read throw. -/
theorem c7_manifest_errors_fatal :
    ∀ (st : ProjState) (projectPath : String) (oracle : Except String AIAnalysis)
      (opts : ProjectAnalyzerOptions),
      (st.packageJsonFile = none →
        analyzeProject st projectPath oracle opts =
          .error "Invalid project directory. Make sure package.json exists.")
      ∧ (st.packageJsonFile = some none →
          ∃ msg, analyzeProject st projectPath oracle opts = .error msg) := by
  intro st projectPath oracle opts
  constructor
  · intro h
    unfold analyzeProject
    rw [h]
  · intro h
    unfold analyzeProject
    rw [h]
    exact ⟨_, rfl⟩

/-- Witness for C7 at the concrete manifest-less project. -/
theorem c7_manifest_errors_witness :
    analyzeProject absentManifestState "/p" (.error "net") ⟨none, false, false⟩ =
      .error "Invalid project directory. Make sure package.json exists." :=
  (c7_manifest_errors_fatal absentManifestState "/p" (.error "net")
    ⟨none, false, false⟩).1 rfl

/-- C8 counterexample: two distinct descriptors whose paths differ only
in the parameter name translate to **different** target paths —
`users/[id]` versus `users/[uid]` — so the claim that such pairs map to
the same target path (and hence need collision reporting) is false on
this code: parameter names are preserved inside the brackets. -/
theorem c8_param_rename_counterexample :
    userIdRoute ≠ userUidRoute
    ∧ pathSegments userIdRoute.path = ["users", ":id"]
    ∧ pathSegments userUidRoute.path = ["users", ":uid"]
    ∧ isParamSegment ":id" = true
    ∧ isParamSegment ":uid" = true
    ∧ nextPath userIdRoute.path = "users/[id]"
    ∧ nextPath userUidRoute.path = "users/[uid]"
    ∧ nextPath userIdRoute.path ≠ nextPath userUidRoute.path :=
  ⟨by decide, by decide, by decide, by decide, by decide, by decide, by decide,
    by decide⟩

/-- C8 (amended): route-path translation is injective over segment
sequences that differ only in parameter names — two distinct such
descriptors always yield distinct bracketed segment sequences and hence
distinct target path strings, so neither page file overwrites the
other; the rewriter performs no collision detection or conflict
reporting at all. -/
theorem c8_param_rename_distinct :
    ∀ (p₁ p₂ : String),
      List.Forall₂
        (fun a b => a = b ∨ (isParamSegment a = true ∧ isParamSegment b = true))
        (pathSegments p₁) (pathSegments p₂) →
      pathSegments p₁ ≠ pathSegments p₂ →
      (pathSegments p₁).map toNextSegment ≠ (pathSegments p₂).map toNextSegment
      ∧ nextPath p₁ ≠ nextPath p₂ := by
  intro p₁ p₂ hrel hne
  have hmapne : (pathSegments p₁).map toNextSegment ≠
      (pathSegments p₂).map toNextSegment :=
    fun hmap => hne (map_toNextSegment_inj _ _ hrel hmap)
  refine ⟨hmapne, fun hpath => hmapne ?_⟩
  apply intercalate_slash_inj
  · intro x hx
    obtain ⟨seg, hseg, rfl⟩ := List.mem_map.mp hx
    obtain ⟨hne', hsl⟩ := pathSegments_props p₁ seg hseg
    exact toNextSegment_props seg hne' hsl
  · intro x hx
    obtain ⟨seg, hseg, rfl⟩ := List.mem_map.mp hx
    obtain ⟨hne', hsl⟩ := pathSegments_props p₂ seg hseg
    exact toNextSegment_props seg hne' hsl
  · exact hpath

/-- Witness for C8 at the concrete renamed-parameter pair. -/
theorem c8_param_rename_witness :
    (pathSegments "/users/:id").map toNextSegment ≠
      (pathSegments "/users/:uid").map toNextSegment
    ∧ nextPath "/users/:id" ≠ nextPath "/users/:uid" := by
  have h1 : pathSegments "/users/:id" = ["users", ":id"] := by decide
  have h2 : pathSegments "/users/:uid" = ["users", ":uid"] := by decide
  apply c8_param_rename_distinct
  · rw [h1, h2]
    exact List.Forall₂.cons (Or.inl rfl)
      (List.Forall₂.cons (Or.inr ⟨by decide, by decide⟩) List.Forall₂.nil)
  · rw [h1, h2]
    decide

/-! ## Idempotence of the test-import rewriter (C9) -/

/-- The content at `p` is the printer output of some AST. -/
def genOutput (B : Babel) (fs : FS) (p : String) : Prop :=
  ∃ a, lookupA fs.files p = some (.text (B.gen a))

theorem transformTestFilesGo_ok_spec (B : Babel) :
    ∀ (tfs : List String) (fs fs₁ : FS),
      transformTestFilesGo B false tfs fs = (.ok (), fs₁) →
      (∀ p ∈ tfs, genOutput B fs₁ p)
      ∧ (∀ p, ¬ p ∈ tfs → lookupA fs₁.files p = lookupA fs.files p)
      ∧ keysA fs₁.files = keysA fs.files := by
  intro tfs
  induction tfs with
  | nil =>
    intro fs fs₁ h
    simp only [transformTestFilesGo, Prod.mk.injEq] at h
    obtain ⟨-, rfl⟩ := h
    exact ⟨by simp, fun p _ => rfl, rfl⟩
  | cons tf rest ih =>
    intro fs fs₁ h
    cases hl : lookupA fs.files tf with
    | none => simp [transformTestFilesGo, hl] at h
    | some v =>
      cases v with
      | json p => simp [transformTestFilesGo, hl] at h
      | text content =>
        cases hp : B.parse content with
        | none => simp [transformTestFilesGo, hl, hp] at h
        | some ast =>
          simp only [transformTestFilesGo, hl, hp] at h
          have h' : transformTestFilesGo B false rest
              (fsWrite fs tf (.text (B.gen ast))) = (.ok (), fs₁) := by
            rw [← h]
            rfl
          obtain ⟨ha, hb, hk⟩ := ih (fsWrite fs tf (.text (B.gen ast))) fs₁ h'
          have hlw : lookupA (fsWrite fs tf (.text (B.gen ast))).files tf =
              some (.text (B.gen ast)) := by
            show lookupA (setA fs.files tf (.text (B.gen ast))) tf = _
            rw [lookupA_setA, if_pos rfl]
          refine ⟨?_, ?_, ?_⟩
          · intro p hp'
            rcases List.mem_cons.mp hp' with rfl | hmem
            · by_cases hpm : p ∈ rest
              · exact ha p hpm
              · exact ⟨ast, by rw [hb p hpm, hlw]⟩
            · exact ha p hmem
          · intro p hp'
            have hptf : p ≠ tf := fun he => hp' (he ▸ List.mem_cons_self tf rest)
            have hpr : ¬ p ∈ rest := fun hm => hp' (List.mem_cons_of_mem _ hm)
            rw [hb p hpr]
            show lookupA (setA fs.files tf (.text (B.gen ast))) p = lookupA fs.files p
            rw [lookupA_setA, if_neg (fun he => hptf he.symm)]
          · rw [hk]
            exact keysA_setA fs.files tf _ _ hl

theorem transformTestFilesGo_gen_noop (B : Babel)
    (hrt : ∀ a, B.parse (B.gen a) = some a) :
    ∀ (tfs : List String) (fs : FS),
      (∀ p ∈ tfs, genOutput B fs p) →
      transformTestFilesGo B false tfs fs = (.ok (), fs) := by
  intro tfs
  induction tfs with
  | nil => intro fs _; rfl
  | cons tf rest ih =>
    intro fs hgen
    obtain ⟨a, ha⟩ := hgen tf (List.mem_cons_self tf rest)
    have hw : fsWrite fs tf (.text (B.gen a)) = fs := by
      show FS.mk (setA fs.files tf (.text (B.gen a))) fs.dirs = fs
      rw [setA_same fs.files tf _ ha]
    have step : transformTestFilesGo B false (tf :: rest) fs =
        transformTestFilesGo B false rest (fsWrite fs tf (.text (B.gen a))) := by
      simp [transformTestFilesGo, ha, hrt a]
    rw [step, hw]
    exact ih fs (fun p hp => hgen p (List.mem_cons_of_mem _ hp))

/-- C9: the test-import rewriter is idempotent.  For every parser and
printer pair satisfying the parse-print round trip, if a real-mode run
succeeds then running it again on the resulting tree succeeds and
changes nothing: every test file already holds printer output, which
re-parses to the same tree and re-prints to the same text. -/
theorem c9_test_rewrite_idempotent :
    ∀ (B : Babel) (projectPath : String) (fs fs₁ : FS),
      (∀ a, B.parse (B.gen a) = some a) →
      transformTestFiles B projectPath false fs = (.ok (), fs₁) →
      transformTestFiles B projectPath false fs₁ = (.ok (), fs₁) := by
  intro B projectPath fs fs₁ hrt h
  unfold transformTestFiles at h ⊢
  obtain ⟨ha, hb, hk⟩ := transformTestFilesGo_ok_spec B _ fs fs₁ h
  rw [hk]
  exact transformTestFilesGo_gen_noop B hrt _ fs₁ (fun p hp => ha p hp)

/-- A round-tripping parser and printer pair (identity on raw text). -/
def idBabel : Babel :=
  { AST := String, parse := fun s => some s, gen := fun s => s }

/-- A one-test-file tree. -/
def testFs : FS :=
  { files := [("src/app.test.ts", .text "describe()")], dirs := [] }

/-- Witness for C9 at the concrete tree and round-tripping pair. -/
theorem c9_test_rewrite_witness :
    transformTestFiles idBabel "/proj" false testFs = (.ok (), testFs) :=
  c9_test_rewrite_idempotent idBabel "/proj" testFs testFs (fun _ => rfl) (by rfl)

/-- C10 (implicit invariant): every advisory analysis produced by
`analyzeCodebase` (and, more generally, by `convertToAIAnalysis`) has an
empty `requiresMigration` list, so the migratable-with-substitute
category is never populated; substitute suggestions travel only through
the deterministic classifier, whose `react-router-dom` entry carries a
suggestion while still being classified compatible. -/
theorem c10_requires_migration_empty :
    (∀ (codebase : List (String × String)) (pkg : PackageJson)
        (routingOracle configOracle : String),
      (analyzeCodebase codebase pkg routingOracle configOracle).dependencies.requiresMigration = [])
    ∧ (∀ analysis : CodebaseAnalysis,
        (convertToAIAnalysis analysis).dependencies.requiresMigration = [])
    ∧ suggestAlternative "react-router-dom" = some "next/router"
    ∧ checkCompatibility "react-router-dom" = true :=
  ⟨fun _ _ _ _ => rfl, fun _ => rfl, by decide, by decide⟩

end StackShift
